import Mathlib

/-!
Shallow embedding of `src/macc.js` (MACC community visualization):
the data normalizer, sorter/accumulator, scale builder and the geometric
content of the renderer, together with theorems about them.
-/

namespace Macc

/-- A JavaScript numeric value as produced by `Number(...)` coercion:
a finite rational, `NaN`, or one of the two infinities. -/
inductive JsNum
  | fin (q : ℚ)
  | nan
  | inf
  | neginf
deriving DecidableEq, Repr

/-- JS `isFinite(x)`. -/
def JsNum.isFinite : JsNum → Bool
  | .fin _ => true
  | _ => false

/-- JS `x > 0` (false on `NaN` and `-Infinity`, true on `Infinity`). -/
def JsNum.gtZero : JsNum → Bool
  | .fin q => decide (0 < q)
  | .inf => true
  | _ => false

/-- One raw row of `data.tables.DEFAULT`. A field is `none` when the column is
absent or its first cell is nullish; a numeric cell is modelled by the `JsNum`
that `Number(...)` coercion yields on it (a non-numeric string yields `nan`). -/
structure Row where
  actionDim : Option String
  abatementMetric : Option JsNum
  costMetric : Option JsNum
  categoryDim : Option String
deriving DecidableEq, Repr

/-- A normalized item, as built by the `rows.map(...)` step of `draw`
(`src/macc.js` lines 95-99), before filtering. -/
structure NItem where
  action : String
  abatement : JsNum
  cost : JsNum
  category : Option String
deriving DecidableEq, Repr

/-- The per-row mapping of `src/macc.js` lines 95-99:
`action: (r.actionDim && r.actionDim[0]) ?? '—'`,
`abatement: Number((r.abatementMetric && r.abatementMetric[0]) ?? 0)`,
`cost: Number((r.costMetric && r.costMetric[0]) ?? 0)`,
`category: (r.categoryDim && r.categoryDim[0]) ?? null`. -/
def normalizeRow (r : Row) : NItem :=
  { action := r.actionDim.getD "—"
    abatement := r.abatementMetric.getD (.fin 0)
    cost := r.costMetric.getD (.fin 0)
    category := r.categoryDim }

/-- The data normalizer of `src/macc.js` lines 95-100: map each row to an item,
then `.filter(d => isFinite(d.abatement) && d.abatement > 0)`. -/
def normalize (rows : List Row) : List NItem :=
  (rows.map normalizeRow).filter (fun d => d.abatement.isFinite && d.abatement.gtZero)

/-- The empty-state message of `src/macc.js` line 105. -/
def emptyMessage : String :=
  "Adicione campos válidos: Ação (dimensão), Abatimento (>0, métrica) e Custo marginal (métrica)."

/-- The scene produced by one `draw` pass, at the granularity of its top-level
branch (`src/macc.js` lines 102-108): either the centered empty-state message
alone, or a chart built from the non-empty normalized item list. -/
inductive Scene
  | emptyState (message : String)
  | chart (items : List NItem)
deriving DecidableEq, Repr

/-- The branching structure of `draw` (`src/macc.js` lines 95-108): normalize
the rows; if no item survives the filter, render only the empty-state message
and return, otherwise proceed to the chart. -/
def draw (rows : List Row) : Scene :=
  let items := normalize rows
  if items.isEmpty then .emptyState emptyMessage else .chart items

/-- The bar-backing items of a scene: `draw` creates one `rect` per item in its
`items.forEach` loop (`src/macc.js` lines 183-191), and none on the empty
branch, which returns before any SVG element is created. -/
def Scene.bars : Scene → List NItem
  | .emptyState _ => []
  | .chart items => items

/- ### Chart-stage items (finite numeric fields) -/

/-- A chart item with finite numeric fields: the shape of the spec's "valid"
items, on which the sorter/accumulator, scale builder and renderer operate. -/
structure Item where
  action : String
  abatement : ℚ
  cost : ℚ
  category : Option String
deriving DecidableEq, Repr

/-- The sort comparator of `src/macc.js` line 111, `(a,b) => a.cost - b.cost`,
as the ordering it induces on items. -/
def costLE (a b : Item) : Bool :=
  decide (a.cost ≤ b.cost)

/-- The in-place stable `items.sort((a,b) => a.cost - b.cost)` of
`src/macc.js` line 111 (ECMAScript `Array.prototype.sort` is stable). -/
def sortItems (l : List Item) : List Item :=
  l.mergeSort costLE

/-- The total `items.reduce((s,d) => s + d.abatement, 0)` of `src/macc.js` line 114. -/
def totalAbatement (l : List Item) : ℚ :=
  l.foldl (fun s d => s + d.abatement) 0

/-- An item annotated with its cumulative interval, the `d.x0`/`d.x1` fields
that `src/macc.js` line 116 writes onto each item. -/
structure RItem where
  item : Item
  x0 : ℚ
  x1 : ℚ
deriving DecidableEq, Repr

/-- The accumulation loop of `src/macc.js` lines 115-116:
`let acc = 0; items.forEach(d => { d.x0 = acc; d.x1 = acc + d.abatement; acc = d.x1; })`. -/
def assignRanges (acc : ℚ) : List Item → List RItem
  | [] => []
  | d :: rest => ⟨d, acc, acc + d.abatement⟩ :: assignRanges (acc + d.abatement) rest

/-- The minimum `Math.min(0, ...items.map(d => d.cost))` of `src/macc.js` line 119. -/
def minCost (l : List Item) : ℚ :=
  l.foldl (fun m d => min m d.cost) 0

/-- The maximum `Math.max(0, ...items.map(d => d.cost))` of `src/macc.js` line 120. -/
def maxCost (l : List Item) : ℚ :=
  l.foldl (fun m d => max m d.cost) 0

/- ### Scale builder -/

/-- Margin `m.left` of `src/macc.js` line 74. -/
def mLeft : ℚ := 60
/-- Margin `m.right` of `src/macc.js` line 74. -/
def mRight : ℚ := 20
/-- Margin `m.top` of `src/macc.js` line 74. -/
def mTop : ℚ := 28
/-- Margin `m.bottom` of `src/macc.js` line 74. -/
def mBottom : ℚ := 38

/-- The plot width `const W = Math.max(100, width - m.left - m.right)` (`src/macc.js` line 75). -/
def plotW (width : ℚ) : ℚ := max 100 (width - mLeft - mRight)

/-- The plot height `const H = Math.max(80, height - m.top - m.bottom)` (`src/macc.js` line 76). -/
def plotH (height : ℚ) : ℚ := max 80 (height - mTop - mBottom)

/-- JS `x || 1` on a number that is not `NaN`: `0` is falsy and is replaced
by `1`. Used for the divisor guard of `src/macc.js` line 124. -/
def jsOrOne (q : ℚ) : ℚ := if q = 0 then 1 else q

/-- The quantity scale `const xScale = (v) => m.left + (v / totalAbatement) * W`
(`src/macc.js` line 123). -/
def xScale (width total v : ℚ) : ℚ :=
  mLeft + v / total * plotW width

/-- The cost scale `const yScale = (v) => m.top + (H - (v - minCost) / (maxCost - minCost || 1) * H)`
(`src/macc.js` line 124). -/
def yScale (height minC maxC v : ℚ) : ℚ :=
  mTop + (plotH height - (v - minC) / jsOrOne (maxC - minC) * plotH height)

/-- The baseline `const yZero = yScale(0)` (`src/macc.js` line 125). -/
def yZero (height minC maxC : ℚ) : ℚ :=
  yScale height minC maxC 0

/- ### Renderer: axis ticks, gridlines, bars -/

/-- The constant `const xTicks = 6` (`src/macc.js` line 144). -/
def xTicks : ℕ := 6

/-- The constant `const yTicks = 5` (`src/macc.js` line 162). -/
def yTicks : ℕ := 5

/-- One quantity-axis tick: the data value `t`, the pixel abscissa of the tick
mark, and the content of its label `fmtNumber(t, 0) + ' ' + unit`
(value, fraction digits, unit suffix). -/
structure XTick where
  t : ℚ
  x : ℚ
  labelValue : ℚ
  labelDecimals : ℕ
  labelUnit : String
deriving DecidableEq, Repr

/-- The quantity-axis tick loop of `src/macc.js` lines 145-159:
`for (let i=0;i<=xTicks;i++){ const t = (totalAbatement / xTicks) * i; const x = xScale(t); ... }`
with label `fmtNumber(t, 0) + ' ' + unit`. -/
def xAxisTicks (width total : ℚ) (unit : String) : List XTick :=
  (List.range (xTicks + 1)).map (fun (i : ℕ) =>
    let t := total / (xTicks : ℚ) * (i : ℚ)
    { t := t, x := xScale width total t
      labelValue := t, labelDecimals := 0, labelUnit := unit })

/-- One cost-axis gridline: the data value `v`, the pixel ordinate, the two
abscissas of the horizontal line, and the content of its label
`currency + ' ' + fmtNumber(v, decimals) + '/t'`. -/
structure YGrid where
  v : ℚ
  y : ℚ
  lineX1 : ℚ
  lineX2 : ℚ
  labelCurrency : String
  labelValue : ℚ
  labelDecimals : ℚ
deriving DecidableEq, Repr

/-- The cost-axis gridline loop of `src/macc.js` lines 163-177:
`for (let i=0;i<=yTicks;i++){ const v = minCost + (i / yTicks) * (maxCost - minCost); const y = yScale(v); ... }`
with a line from `m.left` to `m.left + W` and label
`currency + ' ' + fmtNumber(v, decimals) + '/t'`. -/
def yGridlines (width height minC maxC : ℚ) (currency : String) (decimals : ℚ) :
    List YGrid :=
  (List.range (yTicks + 1)).map (fun (i : ℕ) =>
    let v := minC + ((i : ℚ) / (yTicks : ℚ)) * (maxC - minC)
    { v := v, y := yScale height minC maxC v
      lineX1 := mLeft, lineX2 := mLeft + plotW width
      labelCurrency := currency, labelValue := v, labelDecimals := decimals })

/-- One rendered bar: the `rect` geometry and fill computed per item in
`src/macc.js` lines 183-189. -/
structure Bar where
  x : ℚ
  w : ℚ
  y : ℚ
  h : ℚ
  fill : String
deriving DecidableEq, Repr

/-- The per-item bar computation of `src/macc.js` lines 183-189:
`const x = xScale(d.x0); const x2 = xScale(d.x1); const w = Math.max(1, x2 - x);
const y = d.cost >= 0 ? yScale(d.cost) : yZero;
const h = Math.max(1, Math.abs(yScale(d.cost) - yZero));
const fill = d.cost >= 0 ? posColor : negColor;`. -/
def barOf (width height minC maxC total : ℚ) (posColor negColor : String)
    (d : RItem) : Bar :=
  let x := xScale width total d.x0
  let x2 := xScale width total d.x1
  { x := x
    w := max 1 (x2 - x)
    y := if 0 ≤ d.item.cost then yScale height minC maxC d.item.cost
         else yZero height minC maxC
    h := max 1 |yScale height minC maxC d.item.cost - yZero height minC maxC|
    fill := if 0 ≤ d.item.cost then posColor else negColor }

/-- The whole bar pass of `draw` on chart-stage items: sort, accumulate,
compute the domains, and emit one bar per item (`src/macc.js`
lines 110-125 and 183-191). -/
def bars (width height : ℚ) (posColor negColor : String) (l : List Item) :
    List Bar :=
  let s := sortItems l
  let total := totalAbatement s
  let mn := minCost s
  let mx := maxCost s
  (assignRanges 0 s).map (barOf width height mn mx total posColor negColor)

/- ### Style lookup and the decimals option -/

/-- A style-bag entry `{value, defaultValue}` for a numeric option; `none`
models a `undefined`/`null` member. The stored numbers are the `JsNum` that
`Number(...)` coercion yields on the raw member. -/
structure StyleEntry where
  value : Option JsNum
  defaultValue : Option JsNum
deriving DecidableEq, Repr

/-- The lookup `getStyle(styleObj, key, fallback)` of `src/macc.js` lines 26-32, for a
numeric option: `if (!v) return fallback;` then
`(v.value !== undefined && v.value !== null) ? v.value : (v.defaultValue ?? fallback)`. -/
def getStyleNum (entry : Option StyleEntry) (fallback : JsNum) : JsNum :=
  match entry with
  | none => fallback
  | some v =>
    match v.value with
    | some x => x
    | none => v.defaultValue.getD fallback

/-- JS `x || d` on a number `x`: `0` and `NaN` are falsy and are replaced by
the default `d`; any other number (infinities included) is kept. -/
def jsOrNum (x : JsNum) (d : ℚ) : JsNum :=
  match x with
  | .fin q => if q = 0 then .fin d else .fin q
  | .nan => .fin d
  | x => x

/-- The option `const decimals = Number(getStyle(styles, 'decimals', 2)) || 2`
(`src/macc.js` line 86). -/
def decimalsEff (entry : Option StyleEntry) : JsNum :=
  jsOrNum (getStyleNum entry (.fin 2)) 2

/- ### Concrete data for witnesses (the scenario of spec.md §8) -/

/-- The two surviving items of the spec's §8 scenario:
A (abatement 10, cost 5) and B (abatement 20, cost -3), in input order. -/
def demoItems : List Item :=
  [{ action := "A", abatement := 10, cost := 5, category := none },
   { action := "B", abatement := 20, cost := -3, category := none }]

/-- A style entry whose configured value is the number 0, for witnesses. -/
def zeroDecimalsEntry : Option StyleEntry :=
  some { value := some (JsNum.fin 0), defaultValue := none }

/-- A one-item list whose only cost is 0: its cost domain is degenerate. -/
def zeroCostItems : List Item :=
  [{ action := "A", abatement := 10, cost := 0, category := none }]

/-- The first ranged item of the §8 scenario: B, occupying `[0, 20)`. -/
def demoRItem : RItem :=
  { item := { action := "B", abatement := 20, cost := -3, category := none },
    x0 := 0, x1 := 20 }

end Macc

namespace Macc

/- ### Helper lemmas -/

theorem totalAbatement_eq_sum (l : List Item) :
    totalAbatement l = (l.map Item.abatement).sum := by
  have key : ∀ (a : ℚ), l.foldl (fun s d => s + d.abatement) a
      = a + (l.map Item.abatement).sum := by
    induction l with
    | nil => intro a; simp
    | cons d rest ih =>
      intro a
      simp only [List.foldl_cons, List.map_cons, List.sum_cons, ih]
      ring
  simpa [totalAbatement] using key 0

theorem totalAbatement_pos (l : List Item) (hne : l ≠ [])
    (hpos : ∀ d ∈ l, 0 < d.abatement) : 0 < totalAbatement l := by
  rw [totalAbatement_eq_sum]
  cases l with
  | nil => cases hne rfl
  | cons d rest =>
    have hd : 0 < d.abatement := hpos d (List.mem_cons_self d rest)
    have hrest : 0 ≤ (rest.map Item.abatement).sum := by
      apply List.sum_nonneg
      intro q hq
      rcases List.mem_map.mp hq with ⟨e, he, rfl⟩
      exact le_of_lt (hpos e (List.mem_cons_of_mem d he))
    simp only [List.map_cons, List.sum_cons]
    linarith

theorem sortItems_perm (l : List Item) : (sortItems l).Perm l :=
  List.mergeSort_perm l costLE

theorem totalAbatement_sortItems (l : List Item) :
    totalAbatement (sortItems l) = totalAbatement l := by
  rw [totalAbatement_eq_sum, totalAbatement_eq_sum]
  exact ((sortItems_perm l).map Item.abatement).sum_eq

theorem sortItems_ne_nil (l : List Item) (hne : l ≠ []) : sortItems l ≠ [] := by
  intro h
  exact hne (List.eq_nil_of_length_eq_zero (by
    have := (sortItems_perm l).length_eq
    rw [h] at this
    simpa using this.symm))

theorem assignRanges_length (acc : ℚ) (l : List Item) :
    (assignRanges acc l).length = l.length := by
  induction l generalizing acc with
  | nil => rfl
  | cons d rest ih => simp [assignRanges, ih]

theorem assignRanges_head (acc : ℚ) (d : Item) (rest : List Item) :
    (assignRanges acc (d :: rest)).head? = some ⟨d, acc, acc + d.abatement⟩ := rfl

theorem assignRanges_mem (acc : ℚ) (l : List Item) :
    ∀ p ∈ assignRanges acc l, p.x1 - p.x0 = p.item.abatement := by
  induction l generalizing acc with
  | nil => intro p hp; cases hp
  | cons d rest ih =>
    intro p hp
    rcases List.mem_cons.mp hp with h | h
    · subst h; simp
    · exact ih _ p h

theorem assignRanges_chain (l : List Item) :
    ∀ (acc : ℚ) (i : ℕ) (a b : RItem),
      (assignRanges acc l)[i]? = some a →
      (assignRanges acc l)[i + 1]? = some b → a.x1 = b.x0 := by
  induction l with
  | nil => intro acc i a b ha _; simp [assignRanges] at ha
  | cons d rest ih =>
    intro acc i a b ha hb
    cases i with
    | zero =>
      simp only [assignRanges, List.getElem?_cons_zero, Option.some.injEq] at ha
      simp only [assignRanges, List.getElem?_cons_succ] at hb
      cases rest with
      | nil => simp [assignRanges] at hb
      | cons e rest' =>
        simp only [assignRanges, List.getElem?_cons_zero, Option.some.injEq] at hb
        rw [← ha, ← hb]
    | succ n =>
      simp only [assignRanges, List.getElem?_cons_succ] at ha hb
      exact ih _ n a b ha hb

theorem assignRanges_getLast (l : List Item) :
    ∀ (acc : ℚ), l ≠ [] →
      ((assignRanges acc l).getLast?).map RItem.x1
        = some (acc + (l.map Item.abatement).sum) := by
  induction l with
  | nil => intro acc h; cases h rfl
  | cons d rest ih =>
    intro acc _
    cases rest with
    | nil => simp [assignRanges]
    | cons e rest' =>
      have step := ih (acc + d.abatement) (by simp)
      have hcons : assignRanges acc (d :: e :: rest')
          = ⟨d, acc, acc + d.abatement⟩ :: assignRanges (acc + d.abatement) (e :: rest') := rfl
      have htail : assignRanges (acc + d.abatement) (e :: rest')
          = ⟨e, acc + d.abatement, acc + d.abatement + e.abatement⟩
            :: assignRanges (acc + d.abatement + e.abatement) rest' := rfl
      rw [hcons, htail, List.getLast?_cons_cons, ← htail, step]
      simp only [List.map_cons, List.sum_cons, Option.some.injEq]
      ring

theorem foldl_min_le_init (l : List Item) (a : ℚ) :
    l.foldl (fun m d => min m d.cost) a ≤ a := by
  induction l generalizing a with
  | nil => simp
  | cons d rest ih =>
    simp only [List.foldl_cons]
    exact le_trans (ih _) (min_le_left _ _)

theorem foldl_min_le_mem (l : List Item) (a : ℚ) :
    ∀ d ∈ l, l.foldl (fun m e => min m e.cost) a ≤ d.cost := by
  induction l generalizing a with
  | nil => intro d hd; cases hd
  | cons e rest ih =>
    intro d hd
    simp only [List.foldl_cons]
    rcases List.mem_cons.mp hd with h | h
    · subst h
      exact le_trans (foldl_min_le_init rest _) (min_le_right _ _)
    · exact ih _ d h

theorem foldl_min_eq_init_or_mem (l : List Item) (a : ℚ) :
    l.foldl (fun m e => min m e.cost) a = a ∨
      ∃ d ∈ l, l.foldl (fun m e => min m e.cost) a = d.cost := by
  induction l generalizing a with
  | nil => left; rfl
  | cons e rest ih =>
    simp only [List.foldl_cons]
    rcases ih (min a e.cost) with h | ⟨d, hd, h⟩
    · rcases le_total a e.cost with hle | hle
      · left; rw [h, min_eq_left hle]
      · right
        exact ⟨e, List.mem_cons_self e rest, by rw [h, min_eq_right hle]⟩
    · exact Or.inr ⟨d, List.mem_cons_of_mem e hd, h⟩

theorem init_le_foldl_max (l : List Item) (a : ℚ) :
    a ≤ l.foldl (fun m d => max m d.cost) a := by
  induction l generalizing a with
  | nil => simp
  | cons d rest ih =>
    simp only [List.foldl_cons]
    exact le_trans (le_max_left _ _) (ih _)

theorem mem_le_foldl_max (l : List Item) (a : ℚ) :
    ∀ d ∈ l, d.cost ≤ l.foldl (fun m e => max m e.cost) a := by
  induction l generalizing a with
  | nil => intro d hd; cases hd
  | cons e rest ih =>
    intro d hd
    simp only [List.foldl_cons]
    rcases List.mem_cons.mp hd with h | h
    · subst h
      exact le_trans (le_max_right _ _) (init_le_foldl_max rest _)
    · exact ih _ d h

theorem foldl_max_eq_init_or_mem (l : List Item) (a : ℚ) :
    l.foldl (fun m e => max m e.cost) a = a ∨
      ∃ d ∈ l, l.foldl (fun m e => max m e.cost) a = d.cost := by
  induction l generalizing a with
  | nil => left; rfl
  | cons e rest ih =>
    simp only [List.foldl_cons]
    rcases ih (max a e.cost) with h | ⟨d, hd, h⟩
    · rcases le_total a e.cost with hle | hle
      · right
        exact ⟨e, List.mem_cons_self e rest, by rw [h, max_eq_right hle]⟩
      · left; rw [h, max_eq_left hle]
    · exact Or.inr ⟨d, List.mem_cons_of_mem e hd, h⟩

theorem minCost_nonpos (l : List Item) : minCost l ≤ 0 :=
  foldl_min_le_init l 0

theorem maxCost_nonneg (l : List Item) : 0 ≤ maxCost l :=
  init_le_foldl_max l 0

theorem minCost_le_cost (l : List Item) (d : Item) (hd : d ∈ l) :
    minCost l ≤ d.cost :=
  foldl_min_le_mem l 0 d hd

theorem cost_le_maxCost (l : List Item) (d : Item) (hd : d ∈ l) :
    d.cost ≤ maxCost l :=
  mem_le_foldl_max l 0 d hd

/- ### Claim theorems -/

/-- C1: for every non-empty list of valid items, after sorting by cost and
accumulating, the `[x0, x1)` intervals partition `[0, totalAbatement]`:
the first item's `x0` is 0, each item's `x1` equals the next item's `x0`,
every item's interval has width equal to its abatement, and the last item's
`x1` equals the total abatement, the sum of all abatements. -/
theorem sorted_ranges_partition (l : List Item) (h : l ≠ []) :
    ((assignRanges 0 (sortItems l)).head?.map RItem.x0 = some 0) ∧
    (∀ (i : ℕ) (a b : RItem),
        (assignRanges 0 (sortItems l))[i]? = some a →
        (assignRanges 0 (sortItems l))[i + 1]? = some b → a.x1 = b.x0) ∧
    (∀ p ∈ assignRanges 0 (sortItems l), p.x1 - p.x0 = p.item.abatement) ∧
    ((assignRanges 0 (sortItems l)).getLast?.map RItem.x1
        = some (totalAbatement (sortItems l))) ∧
    totalAbatement (sortItems l) = totalAbatement l := by
  have hs : sortItems l ≠ [] := sortItems_ne_nil l h
  refine ⟨?_, ?_, ?_, ?_, totalAbatement_sortItems l⟩
  · cases hsl : sortItems l with
    | nil => cases hs hsl
    | cons d rest => rw [assignRanges_head]; rfl
  · intro i a b ha hb
    exact assignRanges_chain (sortItems l) 0 i a b ha hb
  · exact assignRanges_mem 0 (sortItems l)
  · rw [assignRanges_getLast (sortItems l) 0 hs, totalAbatement_eq_sum, zero_add]

/-- Witness for C1 at the §8 scenario items. -/
theorem sorted_ranges_partition_witness :
    demoItems ≠ [] ∧
    (((assignRanges 0 (sortItems demoItems)).head?.map RItem.x0 = some 0) ∧
    (∀ (i : ℕ) (a b : RItem),
        (assignRanges 0 (sortItems demoItems))[i]? = some a →
        (assignRanges 0 (sortItems demoItems))[i + 1]? = some b → a.x1 = b.x0) ∧
    (∀ p ∈ assignRanges 0 (sortItems demoItems), p.x1 - p.x0 = p.item.abatement) ∧
    ((assignRanges 0 (sortItems demoItems)).getLast?.map RItem.x1
        = some (totalAbatement (sortItems demoItems))) ∧
    totalAbatement (sortItems demoItems) = totalAbatement demoItems) :=
  ⟨by decide, sorted_ranges_partition demoItems (by decide)⟩

/-- C2 counterexample: the filter of `src/macc.js` line 100 checks only the
abatement, so a row whose cost coerces to `NaN` survives normalization with a
non-finite cost, contradicting the claim that such rows are excluded. -/
theorem normalize_keeps_nonfinite_cost :
    normalize [{ actionDim := some "A", abatementMetric := some (JsNum.fin 1),
                 costMetric := some JsNum.nan, categoryDim := none }]
      = [{ action := "A", abatement := JsNum.fin 1, cost := JsNum.nan,
           category := none }] ∧
    ¬ (∀ d ∈ normalize [{ actionDim := some "A",
                          abatementMetric := some (JsNum.fin 1),
                          costMetric := some JsNum.nan, categoryDim := none }],
         d.cost.isFinite = true) := by
  constructor
  · rfl
  · intro hall
    have := hall { action := "A", abatement := JsNum.fin 1, cost := JsNum.nan,
                   category := none } (by decide)
    simp [JsNum.isFinite] at this

/-- C2 (amended): every item in the normalized output has a finite, strictly
positive quantity — rows with non-positive or non-finite quantity are silently
excluded — but the cost is not validated: items with non-finite cost are kept. -/
theorem normalize_quantity_filtered (rows : List Row) :
    ∀ d ∈ normalize rows, d.abatement.isFinite = true ∧ d.abatement.gtZero = true := by
  intro d hd
  rcases List.mem_filter.mp hd with ⟨-, hp⟩
  exact Bool.and_eq_true_iff.mp hp

/-- Witness for the amended C2 at a concrete valid row. -/
theorem normalize_quantity_filtered_witness :
    ({ action := "A", abatement := JsNum.fin 2, cost := JsNum.fin 5,
       category := none } : NItem) ∈
      normalize [{ actionDim := some "A", abatementMetric := some (JsNum.fin 2),
                   costMetric := some (JsNum.fin 5), categoryDim := none }] ∧
    (JsNum.isFinite (JsNum.fin 2) = true ∧ JsNum.gtZero (JsNum.fin 2) = true) :=
  ⟨by decide,
   normalize_quantity_filtered
     [{ actionDim := some "A", abatementMetric := some (JsNum.fin 2),
        costMetric := some (JsNum.fin 5), categoryDim := none }]
     { action := "A", abatement := JsNum.fin 2, cost := JsNum.fin 5,
       category := none } (by decide)⟩

/-- C9: when normalization leaves no item, `draw` renders only the centered
instructional empty-state message and returns: the scene is the empty state,
with zero bar elements (and hence no axes or gridlines). -/
theorem empty_items_empty_state (rows : List Row) (h : normalize rows = []) :
    draw rows = Scene.emptyState emptyMessage ∧ (draw rows).bars = [] := by
  constructor
  · simp [draw, h]
  · simp [draw, h, Scene.bars]

/-- Witness for C9: a single row with zero abatement is filtered out. -/
theorem empty_items_empty_state_witness :
    normalize [{ actionDim := some "C", abatementMetric := some (JsNum.fin 0),
                 costMetric := some (JsNum.fin 1), categoryDim := none }] = [] ∧
    (draw [{ actionDim := some "C", abatementMetric := some (JsNum.fin 0),
             costMetric := some (JsNum.fin 1), categoryDim := none }]
        = Scene.emptyState emptyMessage ∧
     (draw [{ actionDim := some "C", abatementMetric := some (JsNum.fin 0),
              costMetric := some (JsNum.fin 1), categoryDim := none }]).bars = []) :=
  ⟨by decide,
   empty_items_empty_state
     [{ actionDim := some "C", abatementMetric := some (JsNum.fin 0),
        costMetric := some (JsNum.fin 1), categoryDim := none }] (by decide)⟩

/-- C10: the effective decimals value `Number(getStyle(styles,'decimals',2)) || 2`
is never 0: a configured 0, a missing entry, and a non-numeric (`NaN`) value
all fall back to the default 2. -/
theorem decimals_never_zero (entry : Option StyleEntry) :
    decimalsEff entry ≠ JsNum.fin 0 ∧
    (entry = none → decimalsEff entry = JsNum.fin 2) ∧
    (getStyleNum entry (JsNum.fin 2) = JsNum.fin 0 →
        decimalsEff entry = JsNum.fin 2) ∧
    (getStyleNum entry (JsNum.fin 2) = JsNum.nan →
        decimalsEff entry = JsNum.fin 2) := by
  refine ⟨?_, ?_, ?_, ?_⟩
  · cases hg : getStyleNum entry (JsNum.fin 2) with
    | fin q =>
      by_cases hq : q = 0
      · simp [decimalsEff, jsOrNum, hg, hq]
      · simp [decimalsEff, jsOrNum, hg, hq]
    | nan => simp [decimalsEff, jsOrNum, hg]
    | inf => simp [decimalsEff, jsOrNum, hg]
    | neginf => simp [decimalsEff, jsOrNum, hg]
  · intro he
    simp [decimalsEff, getStyleNum, jsOrNum, he]
  · intro hg
    simp [decimalsEff, jsOrNum, hg]
  · intro hg
    simp [decimalsEff, jsOrNum, hg]

theorem costLE_trans : ∀ (a b c : Item), costLE a b → costLE b c → costLE a c := by
  intro a b c hab hbc
  simp only [costLE, decide_eq_true_eq] at *
  exact le_trans hab hbc

theorem costLE_total : ∀ (a b : Item), costLE a b || costLE b a := by
  intro a b
  simp only [costLE, Bool.or_eq_true, decide_eq_true_eq]
  exact le_total a.cost b.cost

/-- C4: the sorter is a permutation of its input, sorted ascending by cost, and
stable: for every cost value, the items carrying that cost appear in the output
in exactly their input order. -/
theorem sort_stable_ascending (l : List Item) :
    (sortItems l).Perm l ∧
    (sortItems l).Pairwise (fun a b => a.cost ≤ b.cost) ∧
    ∀ c : ℚ, (sortItems l).filter (fun d => decide (d.cost = c))
        = l.filter (fun d => decide (d.cost = c)) := by
  refine ⟨sortItems_perm l, ?_, ?_⟩
  · have h := List.sorted_mergeSort costLE_trans costLE_total l
    exact h.imp (fun hab => of_decide_eq_true hab)
  · intro c
    have hpair : (l.filter (fun d => decide (d.cost = c))).Pairwise
        (fun a b => costLE a b) := by
      apply List.pairwise_of_forall_mem_list
      intro a ha b hb
      have ha' : a.cost = c := of_decide_eq_true (List.mem_filter.mp ha).2
      have hb' : b.cost = c := of_decide_eq_true (List.mem_filter.mp hb).2
      simp [costLE, ha', hb']
    have hsub : List.Sublist (l.filter (fun d => decide (d.cost = c))) (sortItems l) :=
      List.sublist_mergeSort costLE_trans costLE_total hpair (List.filter_sublist l)
    have hself : (l.filter (fun d => decide (d.cost = c))).filter
        (fun d => decide (d.cost = c)) = l.filter (fun d => decide (d.cost = c)) := by
      apply List.filter_eq_self.mpr
      intro a ha
      exact (List.mem_filter.mp ha).2
    have hsub2 := hsub.filter (fun d => decide (d.cost = c))
    rw [hself] at hsub2
    have hlen : ((sortItems l).filter (fun d => decide (d.cost = c))).length
        = (l.filter (fun d => decide (d.cost = c))).length :=
      ((sortItems_perm l).filter _).length_eq
    exact (hsub2.eq_of_length hlen.symm).symm

/-- C7: the cost domain of `draw` contains zero: `minCost` is a non-positive
lower bound of the item costs attained at 0 or at an item, and `maxCost` is a
non-negative upper bound attained at 0 or at an item. -/
theorem cost_domain_contains_zero (l : List Item) (_hne : l ≠ []) :
    minCost l ≤ 0 ∧ 0 ≤ maxCost l ∧
    (∀ d ∈ l, minCost l ≤ d.cost ∧ d.cost ≤ maxCost l) ∧
    (minCost l = 0 ∨ ∃ d ∈ l, minCost l = d.cost) ∧
    (maxCost l = 0 ∨ ∃ d ∈ l, maxCost l = d.cost) := by
  refine ⟨minCost_nonpos l, maxCost_nonneg l, ?_, ?_, ?_⟩
  · intro d hd
    exact ⟨minCost_le_cost l d hd, cost_le_maxCost l d hd⟩
  · exact foldl_min_eq_init_or_mem l 0
  · exact foldl_max_eq_init_or_mem l 0

/-- Witness for C7 at the §8 scenario items. -/
theorem cost_domain_contains_zero_witness :
    demoItems ≠ [] ∧
    (minCost demoItems ≤ 0 ∧ 0 ≤ maxCost demoItems ∧
    (∀ d ∈ demoItems, minCost demoItems ≤ d.cost ∧ d.cost ≤ maxCost demoItems) ∧
    (minCost demoItems = 0 ∨ ∃ d ∈ demoItems, minCost demoItems = d.cost) ∧
    (maxCost demoItems = 0 ∨ ∃ d ∈ demoItems, maxCost demoItems = d.cost)) :=
  ⟨by decide, cost_domain_contains_zero demoItems (by decide)⟩

/-- C5: when `maxCost == minCost` the `|| 1` guard makes the divisor 1, both
domain ends are then 0, and every item's cost is mapped to the baseline pixel
row `yZero` — the scale never divides by zero. -/
theorem degenerate_domain_guard (height : ℚ) (l : List Item) (_hne : l ≠ [])
    (hdeg : maxCost l = minCost l) :
    jsOrOne (maxCost l - minCost l) = 1 ∧
    minCost l = 0 ∧ maxCost l = 0 ∧
    (∀ d ∈ l, yScale height (minCost l) (maxCost l) d.cost
        = yZero height (minCost l) (maxCost l)) := by
  have h0 : (0 : ℚ) ≤ minCost l := hdeg ▸ maxCost_nonneg l
  have hmin : minCost l = 0 := le_antisymm (minCost_nonpos l) h0
  have hmax : maxCost l = 0 := hdeg.trans hmin
  refine ⟨?_, hmin, hmax, ?_⟩
  · rw [hmin, hmax]
    simp [jsOrOne]
  · intro d hd
    have hc : d.cost = 0 :=
      le_antisymm (hmax ▸ cost_le_maxCost l d hd) (hmin ▸ minCost_le_cost l d hd)
    rw [hc]
    rfl

/-- Witness for C5: a single item of cost 0 gives a zero-width cost domain. -/
theorem degenerate_domain_guard_witness :
    zeroCostItems ≠ [] ∧ maxCost zeroCostItems = minCost zeroCostItems ∧
    (jsOrOne (maxCost zeroCostItems - minCost zeroCostItems) = 1 ∧
    minCost zeroCostItems = 0 ∧ maxCost zeroCostItems = 0 ∧
    (∀ d ∈ zeroCostItems, yScale 400 (minCost zeroCostItems) (maxCost zeroCostItems) d.cost
        = yZero 400 (minCost zeroCostItems) (maxCost zeroCostItems))) :=
  ⟨by decide, by decide, degenerate_domain_guard 400 zeroCostItems (by decide) (by decide)⟩

theorem plotW_pos (width : ℚ) : 0 < plotW width :=
  lt_of_lt_of_le (by norm_num) (le_max_left 100 (width - mLeft - mRight))

theorem plotH_pos (height : ℚ) : 0 < plotH height :=
  lt_of_lt_of_le (by norm_num) (le_max_left 80 (height - mTop - mBottom))

theorem jsOrOne_pos_of_nonneg (q : ℚ) (h : 0 ≤ q) : 0 < jsOrOne q := by
  unfold jsOrOne
  split
  · norm_num
  · exact lt_of_le_of_ne h (Ne.symm (by assumption))

theorem domain_divisor_pos (l : List Item) :
    0 < jsOrOne (maxCost l - minCost l) :=
  jsOrOne_pos_of_nonneg _ (by
    have := le_trans (minCost_nonpos l) (maxCost_nonneg l)
    linarith)

/-- C6: on a non-empty item set with positive quantities the total quantity is
positive, both scale functions are affine, `xScale` is non-decreasing in the
data value, and `yScale` is non-increasing (a higher cost maps to a smaller
pixel Y). -/
theorem scales_affine_monotone (width height : ℚ) (l : List Item)
    (hne : l ≠ []) (hpos : ∀ d ∈ l, 0 < d.abatement) :
    0 < totalAbatement (sortItems l) ∧
    (∀ v : ℚ, xScale width (totalAbatement (sortItems l)) v
        = mLeft + plotW width / totalAbatement (sortItems l) * v) ∧
    (∀ v : ℚ, yScale height (minCost (sortItems l)) (maxCost (sortItems l)) v
        = (mTop + plotH height
            + minCost (sortItems l) * plotH height
              / jsOrOne (maxCost (sortItems l) - minCost (sortItems l)))
          - plotH height / jsOrOne (maxCost (sortItems l) - minCost (sortItems l)) * v) ∧
    (∀ v₁ v₂ : ℚ, v₁ ≤ v₂ → xScale width (totalAbatement (sortItems l)) v₁
        ≤ xScale width (totalAbatement (sortItems l)) v₂) ∧
    (∀ v₁ v₂ : ℚ, v₁ ≤ v₂ →
        yScale height (minCost (sortItems l)) (maxCost (sortItems l)) v₂
          ≤ yScale height (minCost (sortItems l)) (maxCost (sortItems l)) v₁) := by
  have hpos' : ∀ d ∈ sortItems l, 0 < d.abatement :=
    fun d hd => hpos d ((sortItems_perm l).subset hd)
  have htot : 0 < totalAbatement (sortItems l) :=
    totalAbatement_pos (sortItems l) (sortItems_ne_nil l hne) hpos'
  have hW : 0 < plotW width := plotW_pos width
  have hH : 0 < plotH height := plotH_pos height
  have hden : 0 < jsOrOne (maxCost (sortItems l) - minCost (sortItems l)) :=
    domain_divisor_pos (sortItems l)
  refine ⟨htot, ?_, ?_, ?_, ?_⟩
  · intro v
    unfold xScale
    ring
  · intro v
    unfold yScale
    ring
  · intro v₁ v₂ h12
    unfold xScale
    have hdiv : v₁ / totalAbatement (sortItems l) ≤ v₂ / totalAbatement (sortItems l) :=
      (div_le_div_iff_of_pos_right htot).mpr h12
    have := mul_le_mul_of_nonneg_right hdiv hW.le
    linarith
  · intro v₁ v₂ h12
    unfold yScale
    have hdiv : (v₁ - minCost (sortItems l))
          / jsOrOne (maxCost (sortItems l) - minCost (sortItems l))
        ≤ (v₂ - minCost (sortItems l))
          / jsOrOne (maxCost (sortItems l) - minCost (sortItems l)) :=
      (div_le_div_iff_of_pos_right hden).mpr (by linarith)
    have := mul_le_mul_of_nonneg_right hdiv hH.le
    linarith

/-- Witness for C6 on the §8 scenario items in a 600 by 400 container. -/
theorem scales_affine_monotone_witness :
    demoItems ≠ [] ∧ (∀ d ∈ demoItems, 0 < d.abatement) ∧
    (0 < totalAbatement (sortItems demoItems) ∧
    (∀ v : ℚ, xScale 600 (totalAbatement (sortItems demoItems)) v
        = mLeft + plotW 600 / totalAbatement (sortItems demoItems) * v) ∧
    (∀ v : ℚ, yScale 400 (minCost (sortItems demoItems)) (maxCost (sortItems demoItems)) v
        = (mTop + plotH 400
            + minCost (sortItems demoItems) * plotH 400
              / jsOrOne (maxCost (sortItems demoItems) - minCost (sortItems demoItems)))
          - plotH 400 / jsOrOne (maxCost (sortItems demoItems) - minCost (sortItems demoItems)) * v) ∧
    (∀ v₁ v₂ : ℚ, v₁ ≤ v₂ → xScale 600 (totalAbatement (sortItems demoItems)) v₁
        ≤ xScale 600 (totalAbatement (sortItems demoItems)) v₂) ∧
    (∀ v₁ v₂ : ℚ, v₁ ≤ v₂ →
        yScale 400 (minCost (sortItems demoItems)) (maxCost (sortItems demoItems)) v₂
          ≤ yScale 400 (minCost (sortItems demoItems)) (maxCost (sortItems demoItems)) v₁)) :=
  ⟨by decide, by decide, scales_affine_monotone 600 400 demoItems (by decide) (by decide)⟩

/-- C3 counterexample: both renderer loops are inclusive (`i=0..xTicks` and
`i=0..yTicks`), so a concrete chart has 7 quantity-axis ticks and 6 cost-axis
gridlines — not the 6 and 5 the claim states. -/
theorem tick_counts_differ :
    (xAxisTicks 600 30 "tCO2e").length ≠ 6 ∧
    (yGridlines 600 400 (-3) 5 "R$" 2).length ≠ 5 := by
  constructor
  · simp only [xAxisTicks, xTicks, List.length_map, List.length_range]
    norm_num
  · simp only [yGridlines, yTicks, List.length_map, List.length_range]
    norm_num

/-- C3 (amended): the renderer draws exactly 7 evenly spaced quantity-axis
ticks (indices 0..6, step `totalQuantity/6`) spanning 0 to `totalQuantity`,
each at `xScale(t)` with label content `(t, 0 fraction digits, unitSymbol)`,
and exactly 6 evenly spaced cost-axis gridlines (indices 0..5, step
`(maxCost-minCost)/5`) spanning `[minCost, maxCost]`, each a full-width line
with label content `(currencySymbol, v, decimalPlaces)`. -/
theorem axis_ticks_gridlines (width height total minC maxC decimals : ℚ)
    (unit currency : String) :
    (xAxisTicks width total unit).length = 7 ∧
    (∀ i : ℕ, i < 7 → (xAxisTicks width total unit)[i]? = some
        { t := total / 6 * i, x := xScale width total (total / 6 * i),
          labelValue := total / 6 * i, labelDecimals := 0, labelUnit := unit }) ∧
    (xAxisTicks width total unit).head?.map XTick.t = some 0 ∧
    (xAxisTicks width total unit).getLast?.map XTick.t = some total ∧
    (yGridlines width height minC maxC currency decimals).length = 6 ∧
    (∀ i : ℕ, i < 6 → (yGridlines width height minC maxC currency decimals)[i]? = some
        { v := minC + i / 5 * (maxC - minC),
          y := yScale height minC maxC (minC + i / 5 * (maxC - minC)),
          lineX1 := mLeft, lineX2 := mLeft + plotW width,
          labelCurrency := currency, labelValue := minC + i / 5 * (maxC - minC),
          labelDecimals := decimals }) ∧
    (yGridlines width height minC maxC currency decimals).head?.map YGrid.v = some minC ∧
    (yGridlines width height minC maxC currency decimals).getLast?.map YGrid.v = some maxC := by
  have hx : ∀ i : ℕ, i < 7 → (xAxisTicks width total unit)[i]? = some
      { t := total / 6 * i, x := xScale width total (total / 6 * i),
        labelValue := total / 6 * i, labelDecimals := 0, labelUnit := unit } := by
    intro i hi
    simp only [xAxisTicks, xTicks, List.getElem?_map, List.getElem?_range hi,
      Option.map_some', Option.some.injEq]
    norm_num
  have hy : ∀ i : ℕ, i < 6 → (yGridlines width height minC maxC currency decimals)[i]? = some
      { v := minC + i / 5 * (maxC - minC),
        y := yScale height minC maxC (minC + i / 5 * (maxC - minC)),
        lineX1 := mLeft, lineX2 := mLeft + plotW width,
        labelCurrency := currency, labelValue := minC + i / 5 * (maxC - minC),
        labelDecimals := decimals } := by
    intro i hi
    simp only [yGridlines, yTicks, List.getElem?_map, List.getElem?_range hi,
      Option.map_some', Option.some.injEq]
    norm_num
  have hxlen : (xAxisTicks width total unit).length = 7 := by
    simp only [xAxisTicks, xTicks, List.length_map, List.length_range]
  have hylen : (yGridlines width height minC maxC currency decimals).length = 6 := by
    simp only [yGridlines, yTicks, List.length_map, List.length_range]
  refine ⟨hxlen, hx, ?_, ?_, hylen, hy, ?_, ?_⟩
  · rw [List.head?_eq_getElem?, hx 0 (by norm_num)]
    simp only [Option.map_some']
    norm_num
  · rw [List.getLast?_eq_getElem?, hxlen]
    rw [hx 6 (by norm_num)]
    simp only [Option.map_some']
    norm_num
  · rw [List.head?_eq_getElem?, hy 0 (by norm_num)]
    simp only [Option.map_some']
    norm_num
  · rw [List.getLast?_eq_getElem?, hylen]
    rw [hy 5 (by norm_num)]
    simp only [Option.map_some']
    norm_num

/-- C8: each entry of the sorted accumulated list yields exactly one bar; its
left edge is `xScale(x0)` and its width `max 1 (xScale(x1) - xScale(x0))` is at
least 1 pixel; its top is `yScale(cost)` for non-negative cost and `yZero` for
negative cost; its height `max 1 |yScale(cost) - yZero|` is at least 1 pixel;
its fill is `posColor` when `cost >= 0` and `negColor` when `cost < 0`. -/
theorem bars_geometry (width height : ℚ) (posColor negColor : String)
    (l : List Item) (d : RItem) (_hd : d ∈ assignRanges 0 (sortItems l)) :
    (bars width height posColor negColor l).length = l.length ∧
    ∀ b : Bar, b = barOf width height (minCost (sortItems l)) (maxCost (sortItems l))
        (totalAbatement (sortItems l)) posColor negColor d →
      b.x = xScale width (totalAbatement (sortItems l)) d.x0 ∧
      b.w = max 1 (xScale width (totalAbatement (sortItems l)) d.x1
             - xScale width (totalAbatement (sortItems l)) d.x0) ∧
      1 ≤ b.w ∧ 1 ≤ b.h ∧
      b.h = max 1 |yScale height (minCost (sortItems l)) (maxCost (sortItems l)) d.item.cost
             - yZero height (minCost (sortItems l)) (maxCost (sortItems l))| ∧
      (0 ≤ d.item.cost →
        b.y = yScale height (minCost (sortItems l)) (maxCost (sortItems l)) d.item.cost
          ∧ b.fill = posColor) ∧
      (d.item.cost < 0 →
        b.y = yZero height (minCost (sortItems l)) (maxCost (sortItems l))
          ∧ b.fill = negColor) := by
  constructor
  · simp [bars, assignRanges_length, sortItems]
  · intro b hb
    subst hb
    refine ⟨rfl, rfl, le_max_left 1 _, le_max_left 1 _, rfl, ?_, ?_⟩
    · intro h
      constructor
      · simp [barOf, h]
      · simp [barOf, h]
    · intro h
      constructor
      · simp [barOf, not_le.mpr h]
      · simp [barOf, not_le.mpr h]

/-- Witness for the amended C3: the first quantity tick and the last gridline
of the §8 scenario chart. -/
theorem axis_ticks_gridlines_witness :
    (0 : ℕ) < 7 ∧ (5 : ℕ) < 6 ∧
    (xAxisTicks 600 30 "tCO2e")[(0 : ℕ)]? = some
      { t := 30 / 6 * ((0 : ℕ) : ℚ), x := xScale 600 30 (30 / 6 * ((0 : ℕ) : ℚ)),
        labelValue := 30 / 6 * ((0 : ℕ) : ℚ), labelDecimals := 0,
        labelUnit := "tCO2e" } ∧
    (yGridlines 600 400 (-3) 5 "R$" 2)[(5 : ℕ)]? = some
      { v := -3 + ((5 : ℕ) : ℚ) / 5 * (5 - -3),
        y := yScale 400 (-3) 5 (-3 + ((5 : ℕ) : ℚ) / 5 * (5 - -3)),
        lineX1 := mLeft, lineX2 := mLeft + plotW 600,
        labelCurrency := "R$", labelValue := -3 + ((5 : ℕ) : ℚ) / 5 * (5 - -3),
        labelDecimals := 2 } :=
  ⟨by norm_num, by norm_num,
   (axis_ticks_gridlines 600 400 30 (-3) 5 2 "tCO2e" "R$").2.1 0 (by norm_num),
   (axis_ticks_gridlines 600 400 30 (-3) 5 2 "tCO2e" "R$").2.2.2.2.2.1 5 (by norm_num)⟩

theorem sortItems_demoItems :
    sortItems demoItems
      = [{ action := "B", abatement := 20, cost := -3, category := none },
         { action := "A", abatement := 10, cost := 5, category := none }] := by
  simp [sortItems, demoItems, List.mergeSort, List.merge, costLE]
  norm_num

theorem assignRanges_demoItems :
    assignRanges 0 (sortItems demoItems)
      = [demoRItem,
         { item := { action := "A", abatement := 10, cost := 5, category := none },
           x0 := 20, x1 := 30 }] := by
  rw [sortItems_demoItems]
  norm_num [assignRanges, demoRItem]

/-- Witness for C8 at the §8 scenario: the bar of item B (`[0, 20)`, cost -3). -/
theorem bars_geometry_witness :
    demoRItem ∈ assignRanges 0 (sortItems demoItems) ∧
    ((bars 600 400 "#4C78A8" "#72B7B2" demoItems).length = demoItems.length ∧
    ∀ b : Bar, b = barOf 600 400 (minCost (sortItems demoItems)) (maxCost (sortItems demoItems))
        (totalAbatement (sortItems demoItems)) "#4C78A8" "#72B7B2" demoRItem →
      b.x = xScale 600 (totalAbatement (sortItems demoItems)) demoRItem.x0 ∧
      b.w = max 1 (xScale 600 (totalAbatement (sortItems demoItems)) demoRItem.x1
             - xScale 600 (totalAbatement (sortItems demoItems)) demoRItem.x0) ∧
      1 ≤ b.w ∧ 1 ≤ b.h ∧
      b.h = max 1 |yScale 400 (minCost (sortItems demoItems)) (maxCost (sortItems demoItems)) demoRItem.item.cost
             - yZero 400 (minCost (sortItems demoItems)) (maxCost (sortItems demoItems))| ∧
      (0 ≤ demoRItem.item.cost →
        b.y = yScale 400 (minCost (sortItems demoItems)) (maxCost (sortItems demoItems)) demoRItem.item.cost
          ∧ b.fill = "#4C78A8") ∧
      (demoRItem.item.cost < 0 →
        b.y = yZero 400 (minCost (sortItems demoItems)) (maxCost (sortItems demoItems))
          ∧ b.fill = "#72B7B2")) :=
  ⟨by rw [assignRanges_demoItems]; exact List.mem_cons_self _ _,
   bars_geometry 600 400 "#4C78A8" "#72B7B2" demoItems demoRItem
     (by rw [assignRanges_demoItems]; exact List.mem_cons_self _ _)⟩

/-- Witness for C10 at a style entry whose configured value is 0. -/
theorem decimals_never_zero_witness :
    getStyleNum zeroDecimalsEntry (JsNum.fin 2) = JsNum.fin 0 ∧
    decimalsEff zeroDecimalsEntry = JsNum.fin 2 ∧
    decimalsEff zeroDecimalsEntry ≠ JsNum.fin 0 :=
  ⟨by decide,
   (decimals_never_zero zeroDecimalsEntry).2.2.1 (by decide),
   (decimals_never_zero zeroDecimalsEntry).1⟩

end Macc
